import Mathlib

/-!
  # go-bcrypt wrapper: verification of the policy layer

  A shallow embedding of the `gobcrypt` package (bcrypt.go, constants.go,
  prehash.go, utils.go) together with a structural model of the external
  `golang.org/x/crypto/bcrypt` primitive it delegates to.  Byte strings are
  `List Nat`; Go `int` is `Int`; fallible Go functions return `Except`.
-/

namespace GoBcrypt

/-- Byte strings are lists of naturals; each entry stands for one byte. -/
abbrev Bytes := List Nat

/-- Reduction of a natural number to a 32-bit machine word. -/
def w32 (n : Nat) : Nat := n % 4294967296

/-- Right rotation of a 32-bit word by `n` bits. -/
def rotr (n x : Nat) : Nat := w32 ((x >>> n) ||| (x <<< (32 - n)))

/-- Modelled from the spec: the pre-hash transform delegates to the standard
SHA-256 function of the platform library (`crypto/sha256`), which is external
to this repository.  These are the standard SHA-256 round constants. -/
def sha256K : List Nat :=
  [1116352408, 1899447441, 3049323471, 3921009573, 961987163,
   1508970993, 2453635748, 2870763221, 3624381080, 310598401,
   607225278, 1426881987, 1925078388, 2162078206, 2614888103,
   3248222580, 3835390401, 4022224774, 264347078, 604807628,
   770255983, 1249150122, 1555081692, 1996064986, 2554220882,
   2821834349, 2952996808, 3210313671, 3336571891, 3584528711,
   113926993, 338241895, 666307205, 773529912, 1294757372,
   1396182291, 1695183700, 1986661051, 2177026350, 2456956037,
   2730485921, 2820302411, 3259730800, 3345764771, 3516065817,
   3600352804, 4094571909, 275423344, 430227734, 506948616,
   659060556, 883997877, 958139571, 1322822218, 1537002063,
   1747873779, 1955562222, 2024104815, 2227730452, 2361852424,
   2428436474, 2756734187, 3204031479, 3329325298]

/-- The eight 32-bit words of a SHA-256 chaining value or working state. -/
structure Sha8 where
  a : Nat
  b : Nat
  c : Nat
  d : Nat
  e : Nat
  f : Nat
  g : Nat
  h : Nat

/-- The standard SHA-256 initial hash value. -/
def sha256Init : Sha8 :=
  ⟨1779033703, 3144134277, 1013904242, 2773480762, 1359893119, 2600822924, 528734635, 1541459225⟩

/-- Merkle–Damgård padding: append `0x80`, zeros to 56 mod 64, then the
bit length as eight big-endian bytes. -/
def sha256Pad (msg : Bytes) : Bytes :=
  let len := msg.length
  let k := (120 - ((len + 1) % 64)) % 64
  let lenBits := len * 8
  msg ++ 128 :: (List.replicate k 0 ++ (List.range 8).map (fun i => (lenBits >>> (56 - 8 * i)) % 256))

/-- Split a byte string into 64-byte blocks; the fuel, instantiated with the
length of the string, bounds the number of blocks and makes the recursion
structural. -/
def chunksAux : Nat → Bytes → List Bytes
  | 0, _ => []
  | _, [] => []
  | fuel + 1, l => List.take 64 l :: chunksAux fuel (List.drop 64 l)

/-- Split a byte string into 64-byte blocks. -/
def chunks64 (l : Bytes) : List Bytes := chunksAux l.length l

/-- The `i`-th big-endian 32-bit word of a block. -/
def beWord (b : Bytes) (i : Nat) : Nat :=
  b.getD (4 * i) 0 * 16777216 + b.getD (4 * i + 1) 0 * 65536 +
    b.getD (4 * i + 2) 0 * 256 + b.getD (4 * i + 3) 0

/-- The sixteen message words of a 64-byte block. -/
def blockWords (b : Bytes) : List Nat := (List.range 16).map (beWord b)

/-- SHA-256 small sigma 0. -/
def ssig0 (x : Nat) : Nat := w32 (rotr 7 x ^^^ rotr 18 x ^^^ (x >>> 3))

/-- SHA-256 small sigma 1. -/
def ssig1 (x : Nat) : Nat := w32 (rotr 17 x ^^^ rotr 19 x ^^^ (x >>> 10))

/-- SHA-256 big sigma 0. -/
def bsig0 (x : Nat) : Nat := w32 (rotr 2 x ^^^ rotr 13 x ^^^ rotr 22 x)

/-- SHA-256 big sigma 1. -/
def bsig1 (x : Nat) : Nat := w32 (rotr 6 x ^^^ rotr 11 x ^^^ rotr 25 x)

/-- SHA-256 choice function; complement is xor with `2^32 - 1`. -/
def chFun (x y z : Nat) : Nat := w32 ((x &&& y) ^^^ ((x ^^^ 4294967295) &&& z))

/-- SHA-256 majority function. -/
def majFun (x y z : Nat) : Nat := w32 ((x &&& y) ^^^ (x &&& z) ^^^ (y &&& z))

/-- Extend the sixteen message words of a block to the 64-entry schedule. -/
def extendWords (w : List Nat) : List Nat :=
  (List.range 48).foldl
    (fun w i =>
      let t := i + 16
      w ++ [w32 (ssig1 (w.getD (t - 2) 0) + w.getD (t - 7) 0 +
                 ssig0 (w.getD (t - 15) 0) + w.getD (t - 16) 0)])
    w

/-- One SHA-256 compression round, consuming one `(constant, word)` pair. -/
def shaRound (s : Sha8) (kw : Nat × Nat) : Sha8 :=
  let t1 := w32 (s.h + bsig1 s.e + chFun s.e s.f s.g + kw.1 + kw.2)
  let t2 := w32 (bsig0 s.a + majFun s.a s.b s.c)
  ⟨w32 (t1 + t2), s.a, s.b, s.c, w32 (s.d + t1), s.e, s.f, s.g⟩

/-- Process one 64-byte block: 64 rounds, then add back the chaining value. -/
def processBlock (hs : Sha8) (blk : Bytes) : Sha8 :=
  let ws := extendWords (blockWords blk)
  let s := (sha256K.zip ws).foldl shaRound hs
  ⟨w32 (hs.a + s.a), w32 (hs.b + s.b), w32 (hs.c + s.c), w32 (hs.d + s.d),
   w32 (hs.e + s.e), w32 (hs.f + s.f), w32 (hs.g + s.g), w32 (hs.h + s.h)⟩

/-- A 32-bit word as four big-endian bytes. -/
def wordBE (x : Nat) : Bytes := [(x >>> 24) % 256, (x >>> 16) % 256, (x >>> 8) % 256, x % 256]

/-- SHA-256 of an arbitrary byte string: pad, process each block, and emit
the final chaining value as 32 big-endian bytes. -/
def sha256 (msg : Bytes) : Bytes :=
  let hs := (chunks64 (sha256Pad msg)).foldl processBlock sha256Init
  wordBE hs.a ++ wordBE hs.b ++ wordBE hs.c ++ wordBE hs.d ++
    wordBE hs.e ++ wordBE hs.f ++ wordBE hs.g ++ wordBE hs.h

/-- The SHA-256 digest of any message is exactly 32 bytes. -/
theorem sha256_length (msg : Bytes) : (sha256 msg).length = 32 := by
  simp [sha256, wordBE]

/-!
  ## The underlying bcrypt primitive (`golang.org/x/crypto/bcrypt`)

  The primitive is external to this repository; the spec calls it the
  "underlying primitive" and describes its blob as a self-describing textual
  encoding: version tag, cost, salt, digest.  The structural parts below
  (blob serialization, parsing, cost bounds, comparison discipline) mirror the
  x/crypto library; the expensive Blowfish key derivation itself is modelled
  from the spec as a deterministic digest, injective in the password at a
  fixed cost and salt.  Salt generation draws from the platform RNG, so the
  (already base64-encoded, 22-byte) salt is passed in explicitly.
-/

/-- Equality of `Except` values is decidable when it is on both components. -/
instance {ε α : Type} [DecidableEq ε] [DecidableEq α] : DecidableEq (Except ε α) := fun a b =>
  match a, b with
  | .ok x, .ok y =>
    if h : x = y then .isTrue (by rw [h]) else .isFalse (fun hh => h (Except.ok.inj hh))
  | .error x, .error y =>
    if h : x = y then .isTrue (by rw [h]) else .isFalse (fun hh => h (Except.error.inj hh))
  | .ok _, .error _ => .isFalse (fun hh => Except.noConfusion hh)
  | .error _, .ok _ => .isFalse (fun hh => Except.noConfusion hh)

/-- Errors of the underlying x/crypto bcrypt primitive. -/
inductive BcryptErr where
  /-- the password and hash do not match -/
  | mismatched : BcryptErr
  /-- the blob is shorter than the minimum hash size (59 bytes) -/
  | hashTooShort : BcryptErr
  /-- the blob does not begin with the marker byte -/
  | invalidHashStart (b : Nat) : BcryptErr
  /-- the blob's major version byte is newer than supported -/
  | hashVersionTooNew (b : Nat) : BcryptErr
  /-- the two cost bytes are not a decimal number -/
  | costNotNumeric (b0 b1 : Nat) : BcryptErr
  /-- the cost is outside the primitive's own range 4..31 -/
  | invalidCost (c : Int) : BcryptErr
  /-- the password handed to the primitive is over 72 bytes -/
  | passwordTooLong : BcryptErr
deriving DecidableEq

/-- A parsed bcrypt hash blob: digest, salt, cost, and version bytes, as in
the x/crypto `hashed` struct. -/
structure Hashed where
  hash : Bytes
  salt : Bytes
  cost : Int
  major : Nat
  minor : Nat
deriving DecidableEq

/-- A blob must be at least 59 bytes to parse. -/
def minHashSize : Nat := 59

/-- The primitive's own minimum cost (below it the cost is replaced by the
primitive's default, 10). -/
def bcryptMinCost : Int := 4

/-- The primitive's own maximum cost. -/
def bcryptMaxCost : Int := 31

/-- Modelled from the spec: the expensive Blowfish-based key derivation at the
heart of the primitive, external to this repository.  The spec treats it as a
deterministic function of password, cost and salt; it is modelled here as a
byte sequence that determines the password at a fixed cost and salt (the
digest of real bcrypt is likewise assumed collision-free by the spec). -/
def bcryptDigest (password : Bytes) (cost : Int) (salt : Bytes) : Bytes :=
  List.replicate 30 46 ++ (cost.toNat % 100) :: (salt ++ password)

/-- The requested cost as the two decimal bytes `%02d` of the blob. -/
def costDigits (c : Int) : Bytes := [48 + c.toNat % 100 / 10, 48 + c.toNat % 10]

/-- Serialization of a parsed hash, as in the x/crypto `Hash` method:
marker, major, optional minor, marker, two cost digits, marker, salt, digest. -/
def hashSerialize (p : Hashed) : Bytes :=
  [36, p.major] ++ (if p.minor ≠ 0 then [p.minor] else []) ++ [36] ++
    costDigits p.cost ++ [36] ++ p.salt ++ p.hash

/-- Cost check of the primitive, as in x/crypto `checkCost`. -/
def checkCost (c : Int) : Except BcryptErr Unit :=
  if c < bcryptMinCost ∨ c > bcryptMaxCost then .error (.invalidCost c) else .ok ()

/-- The decimal value of an ASCII digit byte, if it is one. -/
def digitVal (b : Nat) : Option Nat := if 48 ≤ b ∧ b ≤ 57 then some (b - 48) else none

/-- Go `strconv.Atoi` restricted to the two cost bytes: an optional sign
followed by digits. -/
def atoi2 (b0 b1 : Nat) : Option Int :=
  if b0 = 43 then (digitVal b1).map (fun d => (d : Int))
  else if b0 = 45 then (digitVal b1).map (fun d => -(d : Int))
  else
    match digitVal b0, digitVal b1 with
    | some d0, some d1 => some ((d0 * 10 + d1 : Nat) : Int)
    | _, _ => none

/-- Version parsing, as in x/crypto `decodeVersion`: a marker byte, a major
version at most `'2'`, and an optional minor version byte; returns the
major, the minor (0 when absent) and the number of bytes consumed. -/
def decodeVersion (sh : Bytes) : Except BcryptErr (Nat × Nat × Nat) :=
  let b0 := sh.getD 0 0
  if b0 ≠ 36 then .error (.invalidHashStart b0)
  else
    let b1 := sh.getD 1 0
    if b1 > 50 then .error (.hashVersionTooNew b1)
    else
      let b2 := sh.getD 2 0
      if b2 ≠ 36 then .ok (b1, b2, 4) else .ok (b1, 0, 3)

/-- Blob parsing, as in x/crypto `newFromHash`: length check, version, two
cost bytes and their separator, then 22 salt bytes and the remaining digest. -/
def newFromHash (sh : Bytes) : Except BcryptErr Hashed :=
  if sh.length < minHashSize then .error .hashTooShort
  else
    match decodeVersion sh with
    | .error e => .error e
    | .ok (major, minor, n) =>
      let sh1 := sh.drop n
      let b0 := sh1.getD 0 0
      let b1 := sh1.getD 1 0
      match atoi2 b0 b1 with
      | none => .error (.costNotNumeric b0 b1)
      | some c =>
        match checkCost c with
        | .error e => .error e
        | .ok _ =>
          let sh2 := sh1.drop 3
          .ok ⟨sh2.drop 22, sh2.take 22, c, major, minor⟩

/-- Hash generation of the primitive, as in x/crypto `GenerateFromPassword`
and `newFromPassword`: reject passwords over 72 bytes, replace a cost below
the primitive's minimum by its default, check the cost, then derive the
digest at version `2a` with the freshly drawn salt and serialize. -/
def generateFromPassword (password : Bytes) (cost : Int) (salt : Bytes) :
    Except BcryptErr Bytes :=
  if password.length > 72 then .error .passwordTooLong
  else
    let cost := if cost < bcryptMinCost then 10 else cost
    match checkCost cost with
    | .error e => .error e
    | .ok _ => .ok (hashSerialize ⟨bcryptDigest password cost salt, salt, cost, 50, 97⟩)

/-- Verification of the primitive, as in x/crypto `CompareHashAndPassword`:
parse the blob, re-derive the digest from the candidate with the parsed cost
and salt, and compare the two serializations for exact equality. -/
def compareHashAndPassword (hash password : Bytes) : Except BcryptErr Unit :=
  match newFromHash hash with
  | .error e => .error e
  | .ok p =>
    let otherHash := bcryptDigest password p.cost p.salt
    let otherP : Hashed := ⟨otherHash, p.salt, p.cost, p.major, p.minor⟩
    if hashSerialize p = hashSerialize otherP then .ok () else .error .mismatched

/-- Cost extraction of the primitive, as in x/crypto `Cost`. -/
def bcryptCost (hash : Bytes) : Except BcryptErr Int :=
  match newFromHash hash with
  | .error e => .error e
  | .ok p => .ok p.cost

/-!
  ## The wrapper (`gobcrypt` package, from `src/`)
-/

/-- DefaultCost, from constants.go. -/
def DefaultCost : Int := 14

/-- MinCost, from constants.go. -/
def MinCost : Int := 12

/-- MaxCost, from constants.go. -/
def MaxCost : Int := 31

/-- PasswordLimit, from constants.go. -/
def PasswordLimit : Nat := 72

/-- Wrapper-level errors, from constants.go; the wrapping variants carry the
underlying primitive error they wrap. -/
inductive GoErr where
  /-- ErrCostTooLow, carrying the offending cost -/
  | costTooLow (got : Int) : GoErr
  /-- ErrCostTooHigh, carrying the offending cost -/
  | costTooHigh (got : Int) : GoErr
  /-- ErrHashEmpty -/
  | hashEmpty : GoErr
  /-- ErrGenerateFailed wrapping a primitive error -/
  | generateFailed (e : BcryptErr) : GoErr
  /-- ErrCompareFailed wrapping a primitive error -/
  | compareFailed (e : BcryptErr) : GoErr
  /-- ErrInvalidHash wrapping a primitive error -/
  | invalidHash (e : BcryptErr) : GoErr
deriving DecidableEq

/-- Prehash, from prehash.go: the raw SHA-256 digest of the password. -/
def Prehash (password : Bytes) : Bytes := sha256 password

/-- needsPrehash, from prehash.go. -/
def needsPrehash (password : Bytes) : Bool := password.length > PasswordLimit

/-- The password transformation at bcrypt.go lines 34-36 (the Generate path):
pre-hash the password exactly when it exceeds PasswordLimit. -/
def generateEffectivePassword (password : Bytes) : Bytes :=
  if password.length > PasswordLimit then Prehash password else password

/-- The password transformation at bcrypt.go lines 70-72 (the Compare path):
pre-hash the password exactly when it exceeds PasswordLimit. -/
def compareEffectivePassword (password : Bytes) : Bytes :=
  if password.length > PasswordLimit then Prehash password else password

/-- Generate, from bcrypt.go: pre-hash an over-long password, reject a cost
outside [MinCost, MaxCost] with the direction-specific error, then delegate
to the primitive, wrapping its errors in ErrGenerateFailed. -/
def Generate (password : Bytes) (cost : Int) (salt : Bytes) : Except GoErr Bytes :=
  let password := generateEffectivePassword password
  if cost < MinCost then .error (.costTooLow cost)
  else if cost > MaxCost then .error (.costTooHigh cost)
  else
    match generateFromPassword password cost salt with
    | .error e => .error (.generateFailed e)
    | .ok h => .ok h

/-- Compare, from bcrypt.go: reject an empty blob with ErrHashEmpty, pre-hash
an over-long candidate the same way Generate does, then delegate to the
primitive's comparator, wrapping its errors in ErrCompareFailed. -/
def Compare (hash password : Bytes) : Except GoErr Unit :=
  if hash.length = 0 then .error .hashEmpty
  else
    let password := compareEffectivePassword password
    match compareHashAndPassword hash password with
    | .error e => .error (.compareFailed e)
    | .ok _ => .ok ()

/-- Cost, from bcrypt.go: the primitive's cost extraction, errors wrapped in
ErrInvalidHash. -/
def Cost (hash : Bytes) : Except GoErr Int :=
  match bcryptCost hash with
  | .error e => .error (.invalidHash e)
  | .ok c => .ok c

/-- NeedsRehash, from bcrypt.go: true when the blob does not parse, otherwise
true exactly when the embedded cost is strictly below the target. -/
def NeedsRehash (hash : Bytes) (targetCost : Int) : Bool :=
  match bcryptCost hash with
  | .error _ => true
  | .ok c => decide (c < targetCost)

/-!
  ## Instrumented wrapper

  The spec makes claims about evaluation order: which inputs reach the
  pre-hash transform and which reach the underlying primitive, and whether an
  error short-circuits before them.  `GenerateT` and `CompareT` re-trace the
  statements of `Generate` and `Compare` in source order, recording an event
  for each cryptographic step as it is executed; their result components are
  proved to agree with `Generate` and `Compare`.
-/

/-- A cryptographic step taken by the wrapper. -/
inductive Ev where
  /-- the pre-hash transform ran on this input -/
  | prehashed (input : Bytes) : Ev
  /-- the underlying bcrypt primitive ran with this password argument -/
  | primitive (password : Bytes) : Ev
deriving DecidableEq

/-- Generate, instrumented: the same statements in the same source order,
with an event recorded when the pre-hash runs and when the primitive runs. -/
def GenerateT (password0 : Bytes) (cost : Int) (salt : Bytes) :
    Except GoErr Bytes × List Ev :=
  let pt :=
    if password0.length > PasswordLimit then (Prehash password0, [Ev.prehashed password0])
    else (password0, [])
  let password := pt.1
  if cost < MinCost then (.error (.costTooLow cost), pt.2)
  else if cost > MaxCost then (.error (.costTooHigh cost), pt.2)
  else
    match generateFromPassword password cost salt with
    | .error e => (.error (.generateFailed e), pt.2 ++ [Ev.primitive password])
    | .ok h => (.ok h, pt.2 ++ [Ev.primitive password])

/-- Compare, instrumented the same way. -/
def CompareT (hash password0 : Bytes) : Except GoErr Unit × List Ev :=
  if hash.length = 0 then (.error .hashEmpty, [])
  else
    let pt :=
      if password0.length > PasswordLimit then (Prehash password0, [Ev.prehashed password0])
      else (password0, [])
    let password := pt.1
    match compareHashAndPassword hash password with
    | .error e => (.error (.compareFailed e), pt.2 ++ [Ev.primitive password])
    | .ok _ => (.ok (), pt.2 ++ [Ev.primitive password])

/-- The instrumented Generate computes the same result as Generate. -/
theorem generateT_fst (p : Bytes) (c : Int) (salt : Bytes) :
    (GenerateT p c salt).1 = Generate p c salt := by
  unfold GenerateT Generate generateEffectivePassword
  by_cases hl : p.length > PasswordLimit <;>
    by_cases h1 : c < MinCost <;>
      by_cases h2 : c > MaxCost <;>
        simp only [hl, h1, h2, if_true, if_false, ite_true, ite_false] <;> (split <;> rfl)

/-- The instrumented Compare computes the same result as Compare. -/
theorem compareT_fst (h p : Bytes) :
    (CompareT h p).1 = Compare h p := by
  unfold CompareT Compare compareEffectivePassword
  by_cases he : h.length = 0 <;>
    by_cases hl : p.length > PasswordLimit <;>
      simp only [he, hl, if_true, if_false, ite_true, ite_false] <;> (split <;> rfl)

/-!
  ## Round-trip lemmas
-/

/-- Reading back the two `%02d` cost bytes of a two-digit number. -/
theorem atoi2_costDigits (n : Nat) (h1 : 10 ≤ n) (h2 : n ≤ 99) :
    atoi2 (48 + n % 100 / 10) (48 + n % 10) = some (n : Int) := by
  have e1 : n % 100 = n := Nat.mod_eq_of_lt (by omega)
  rw [e1]
  have d1 : n / 10 ≤ 9 := by omega
  have d1p : 1 ≤ n / 10 := by omega
  unfold atoi2 digitVal
  rw [if_neg (by omega), if_neg (by omega)]
  rw [if_pos (by omega), if_pos (by omega)]
  simp only [Option.some.injEq]
  have : n / 10 * 10 + n % 10 = n := by omega
  norm_cast
  omega

/-- The serialized form of a version-`2a` hash, as an explicit byte list. -/
theorem hashSerialize_2a (d salt : Bytes) (c : Int) :
    hashSerialize ⟨d, salt, c, 50, 97⟩ =
      36 :: 50 :: 97 :: 36 :: (48 + c.toNat % 100 / 10) :: (48 + c.toNat % 10) :: 36 ::
        (salt ++ d) := by
  simp [hashSerialize, costDigits]

/-- Serializations at a fixed salt, cost and version determine the digest. -/
theorem hashSerialize_inj (d1 d2 salt : Bytes) (c : Int)
    (h : hashSerialize ⟨d1, salt, c, 50, 97⟩ = hashSerialize ⟨d2, salt, c, 50, 97⟩) :
    d1 = d2 := by
  rw [hashSerialize_2a, hashSerialize_2a] at h
  simp only [List.cons.injEq, true_and] at h
  exact List.append_cancel_left h

/-- The model digest determines the password at a fixed cost and salt. -/
theorem bcryptDigest_inj (p q salt : Bytes) (c : Int)
    (h : bcryptDigest p c salt = bcryptDigest q c salt) : p = q := by
  unfold bcryptDigest at h
  have h2 := List.append_cancel_left h
  simp only [List.cons.injEq, true_and] at h2
  exact List.append_cancel_left h2

/-- Parsing inverts serialization for the blobs the primitive produces:
version `2a`, a cost in the wrapper's range, a 22-byte salt, and a digest of
at least 30 bytes. -/
theorem newFromHash_hashSerialize (d salt : Bytes) (c : Int)
    (hd : 30 ≤ d.length) (hs : salt.length = 22) (h1 : (12 : Int) ≤ c) (h2 : c ≤ 31) :
    newFromHash (hashSerialize ⟨d, salt, c, 50, 97⟩) = .ok ⟨d, salt, c, 50, 97⟩ := by
  rw [hashSerialize_2a]
  have hlen : (36 :: 50 :: 97 :: 36 :: (48 + c.toNat % 100 / 10) :: (48 + c.toNat % 10) :: 36 ::
      (salt ++ d)).length = 29 + d.length := by
    simp [hs]
    omega
  unfold newFromHash
  rw [if_neg (by rw [hlen]; unfold minHashSize; omega)]
  have hver : decodeVersion (36 :: 50 :: 97 :: 36 :: (48 + c.toNat % 100 / 10) ::
      (48 + c.toNat % 10) :: 36 :: (salt ++ d)) = .ok (50, 97, 4) := by
    unfold decodeVersion
    simp
  rw [hver]
  simp only [List.drop_succ_cons, List.drop_zero]
  have hn : 10 ≤ c.toNat ∧ c.toNat ≤ 99 := by omega
  have hget0 : ((48 + c.toNat % 100 / 10) :: (48 + c.toNat % 10) :: 36 :: (salt ++ d)).getD 0 0 =
      48 + c.toNat % 100 / 10 := rfl
  have hget1 : ((48 + c.toNat % 100 / 10) :: (48 + c.toNat % 10) :: 36 :: (salt ++ d)).getD 1 0 =
      48 + c.toNat % 10 := rfl
  rw [hget0, hget1, atoi2_costDigits c.toNat hn.1 hn.2, Int.toNat_of_nonneg (by omega)]
  have hcc : checkCost c = .ok () := by
    unfold checkCost bcryptMinCost bcryptMaxCost
    rw [if_neg (by omega)]
  dsimp only
  rw [hcc]
  dsimp only
  rw [← hs, List.take_left salt d, List.drop_left salt d]

/-- The model digest is at least 30 bytes long. -/
theorem bcryptDigest_length (p : Bytes) (c : Int) (salt : Bytes) :
    30 ≤ (bcryptDigest p c salt).length := by
  simp [bcryptDigest]

/-- The primitive succeeds on any password of at most 72 bytes at a cost in
the wrapper's range, producing the serialized version-`2a` blob. -/
theorem generateFromPassword_ok (pw : Bytes) (c : Int) (salt : Bytes)
    (hp : pw.length ≤ 72) (h1 : (12 : Int) ≤ c) (h2 : c ≤ 31) :
    generateFromPassword pw c salt =
      .ok (hashSerialize ⟨bcryptDigest pw c salt, salt, c, 50, 97⟩) := by
  unfold generateFromPassword
  rw [if_neg (by omega)]
  have hlt : ¬ (c < bcryptMinCost) := by unfold bcryptMinCost; omega
  rw [if_neg hlt]
  have hcc : checkCost c = .ok () := by
    unfold checkCost bcryptMinCost bcryptMaxCost
    rw [if_neg (by omega)]
  dsimp only
  rw [hcc]

/-- The effective password the wrapper hands to the primitive is never longer
than PasswordLimit: short passwords pass through, long ones become the
32-byte SHA-256 digest. -/
theorem generateEffectivePassword_length (p : Bytes) :
    (generateEffectivePassword p).length ≤ PasswordLimit := by
  unfold generateEffectivePassword
  by_cases hl : p.length > PasswordLimit
  · rw [if_pos hl]
    rw [Prehash, sha256_length]
    unfold PasswordLimit
    omega
  · rw [if_neg hl]
    omega

/-- The Compare path applies the same transformation as the Generate path. -/
theorem compareEffectivePassword_eq (p : Bytes) :
    compareEffectivePassword p = generateEffectivePassword p := rfl

/-- A password at or under the limit passes through unmodified. -/
theorem generateEffectivePassword_of_le (p : Bytes) (hl : p.length ≤ PasswordLimit) :
    generateEffectivePassword p = p := by
  unfold generateEffectivePassword
  rw [if_neg (not_lt.mpr hl)]

/-- A password over the limit is replaced by its pre-hash digest. -/
theorem generateEffectivePassword_of_gt (p : Bytes) (hl : PasswordLimit < p.length) :
    generateEffectivePassword p = Prehash p := by
  unfold generateEffectivePassword
  rw [if_pos hl]

/-- Generate succeeds at any in-range cost, producing the blob serialized
from the digest of the effective password. -/
theorem Generate_ok (p : Bytes) (c : Int) (salt : Bytes)
    (h1 : MinCost ≤ c) (h2 : c ≤ MaxCost) :
    Generate p c salt =
      .ok (hashSerialize ⟨bcryptDigest (generateEffectivePassword p) c salt, salt, c, 50, 97⟩) := by
  have h1n : (12 : Int) ≤ c := h1
  have h2n : c ≤ 31 := h2
  have hpl : (generateEffectivePassword p).length ≤ 72 := generateEffectivePassword_length p
  unfold Generate
  rw [if_neg (not_lt.mpr h1), if_neg (not_lt.mpr h2)]
  rw [generateFromPassword_ok _ c salt hpl h1n h2n]

/-- Comparing a produced blob against a candidate reduces to comparing the
stored digest with the digest of the candidate's effective password. -/
theorem compareHashAndPassword_hashSerialize (pw q : Bytes) (c : Int) (salt : Bytes)
    (hs : salt.length = 22) (h1 : (12 : Int) ≤ c) (h2 : c ≤ 31) :
    compareHashAndPassword (hashSerialize ⟨bcryptDigest pw c salt, salt, c, 50, 97⟩) q =
      if pw = q then .ok () else .error .mismatched := by
  unfold compareHashAndPassword
  rw [newFromHash_hashSerialize _ _ _ (bcryptDigest_length pw c salt) hs h1 h2]
  dsimp only
  by_cases hpq : pw = q
  · subst hpq
    rw [if_pos rfl, if_pos rfl]
  · rw [if_neg (fun hcontra =>
      hpq (bcryptDigest_inj pw q salt c (hashSerialize_inj _ _ _ _ hcontra))), if_neg hpq]

/-- A produced blob is never empty. -/
theorem hashSerialize_2a_ne_nil (d salt : Bytes) (c : Int) :
    (hashSerialize ⟨d, salt, c, 50, 97⟩).length ≠ 0 := by
  rw [hashSerialize_2a]
  simp

/-- The trace of an instrumented Generate: the pre-hash event exactly when the
password is over the limit, then the primitive event exactly when the cost is
in range, with the effective password as its argument. -/
theorem generateT_trace (p : Bytes) (c : Int) (salt : Bytes) :
    (GenerateT p c salt).2 =
      (if PasswordLimit < p.length then [Ev.prehashed p] else []) ++
        (if c < MinCost ∨ MaxCost < c then []
         else [Ev.primitive (generateEffectivePassword p)]) := by
  unfold GenerateT generateEffectivePassword
  by_cases hl : p.length > PasswordLimit <;>
    by_cases h1 : c < MinCost <;>
      by_cases h2 : c > MaxCost <;>
        simp [hl, h1, h2] <;> (split <;> rfl)

/-- The trace of an instrumented Compare: empty when the blob is empty,
otherwise the pre-hash event exactly when the candidate is over the limit,
then the primitive event with the effective candidate as its argument. -/
theorem compareT_trace (h p : Bytes) :
    (CompareT h p).2 =
      if h.length = 0 then []
      else (if PasswordLimit < p.length then [Ev.prehashed p] else []) ++
        [Ev.primitive (compareEffectivePassword p)] := by
  unfold CompareT compareEffectivePassword
  by_cases he : h.length = 0 <;>
    by_cases hl : p.length > PasswordLimit <;>
      simp [he, hl] <;> (split <;> rfl)

/-!
  ## Claim theorems
-/

/-- C1: for every credential (of any length, including empty) and every cost
in [MinCost, MaxCost], Compare applied to the blob returned by Generate and
the same credential succeeds. -/
theorem generate_compare_roundtrip (p : Bytes) (c : Int) (salt : Bytes)
    (hs : salt.length = 22) (h1 : MinCost ≤ c) (h2 : c ≤ MaxCost) :
    ∃ blob, Generate p c salt = .ok blob ∧ Compare blob p = .ok () := by
  have h1n : (12 : Int) ≤ c := h1
  have h2n : c ≤ 31 := h2
  refine ⟨_, Generate_ok p c salt h1 h2, ?_⟩
  unfold Compare
  rw [if_neg (hashSerialize_2a_ne_nil _ _ _)]
  dsimp only
  rw [compareHashAndPassword_hashSerialize (generateEffectivePassword p)
    (compareEffectivePassword p) c salt hs h1n h2n]
  rw [compareEffectivePassword_eq, if_pos rfl]

/-- Witness for C1 at the empty credential and the minimum cost. -/
theorem generate_compare_roundtrip_witness :
    ∃ blob, Generate [] 12 (List.replicate 22 46) = .ok blob ∧ Compare blob [] = .ok () :=
  generate_compare_roundtrip [] 12 (List.replicate 22 46) (by decide) (by decide) (by decide)

/-- C2: the pre-hash threshold policy: a credential at or below PasswordLimit
passes through unmodified, one strictly above it is replaced by its digest,
the Generate-path and Compare-path transformations coincide, and the
transformed credential is exactly what each instrumented path hands to the
underlying primitive. -/
theorem prehash_threshold_policy :
    (∀ p : Bytes, p.length ≤ PasswordLimit →
        generateEffectivePassword p = p ∧ compareEffectivePassword p = p) ∧
    (∀ p : Bytes, PasswordLimit < p.length →
        generateEffectivePassword p = Prehash p ∧ compareEffectivePassword p = Prehash p) ∧
    (∀ p : Bytes, generateEffectivePassword p = compareEffectivePassword p) ∧
    (∀ (p salt : Bytes) (c : Int) (q : Bytes),
        Ev.primitive q ∈ (GenerateT p c salt).2 → q = generateEffectivePassword p) ∧
    (∀ (h p q : Bytes), Ev.primitive q ∈ (CompareT h p).2 → q = compareEffectivePassword p) := by
  refine ⟨?_, ?_, fun p => rfl, ?_, ?_⟩
  · intro p hl
    exact ⟨generateEffectivePassword_of_le p hl,
      (compareEffectivePassword_eq p).trans (generateEffectivePassword_of_le p hl)⟩
  · intro p hl
    exact ⟨generateEffectivePassword_of_gt p hl,
      (compareEffectivePassword_eq p).trans (generateEffectivePassword_of_gt p hl)⟩
  · intro p salt c q hq
    rw [generateT_trace] at hq
    rcases List.mem_append.mp hq with hq | hq
    · split at hq <;> simp at hq
    · split at hq <;> simp at hq
      exact hq
  · intro h p q hq
    rw [compareT_trace] at hq
    split at hq
    · simp at hq
    · rcases List.mem_append.mp hq with hq | hq
      · split at hq <;> simp at hq
      · simp at hq
        exact hq

/-- Witness for C2 at a credential of exactly PasswordLimit bytes and one of
PasswordLimit + 1 bytes. -/
theorem prehash_threshold_policy_witness :
    (generateEffectivePassword (List.replicate 72 97) = List.replicate 72 97 ∧
        compareEffectivePassword (List.replicate 72 97) = List.replicate 72 97) ∧
    (generateEffectivePassword (List.replicate 73 98) = Prehash (List.replicate 73 98) ∧
        compareEffectivePassword (List.replicate 73 98) = Prehash (List.replicate 73 98)) :=
  ⟨prehash_threshold_policy.1 (List.replicate 72 97) (by decide),
   prehash_threshold_policy.2.1 (List.replicate 73 98) (by decide)⟩

set_option maxRecDepth 100000 in
/-- C3 counterexample: the claim fails as stated.  Take the 73-byte credential
`p` of all `'a'` and the candidate `q = Prehash p`.  Then `q` differs from
`p`, yet Compare accepts `q` against the blob Generate produced for `p`,
because `q` is 32 bytes long, so the Compare path does not pre-hash it and
the primitive sees exactly the digest the blob was derived from. -/
theorem compare_distinct_credentials_cex :
    Prehash (List.replicate 73 97) ≠ List.replicate 73 97 ∧
    (Generate (List.replicate 73 97) 12 (List.replicate 22 46)).isOk = true ∧
    Compare ((Generate (List.replicate 73 97) 12 (List.replicate 22 46)).toOption.getD [])
      (Prehash (List.replicate 73 97)) = .ok () := by
  refine ⟨by decide, by decide, by decide⟩

/-- C3 amended: Compare rejects every candidate whose effective password
differs from the credential's effective password — that is, barring a
pre-hash digest collision and barring a candidate equal to the pre-hash
digest of an over-limit credential (and vice versa). -/
theorem compare_distinct_credentials_amended (p q : Bytes) (c : Int) (salt : Bytes)
    (hs : salt.length = 22) (h1 : MinCost ≤ c) (h2 : c ≤ MaxCost)
    (hne : generateEffectivePassword p ≠ compareEffectivePassword q) :
    ∃ blob, Generate p c salt = .ok blob ∧
      Compare blob q = .error (.compareFailed .mismatched) := by
  have h1n : (12 : Int) ≤ c := h1
  have h2n : c ≤ 31 := h2
  refine ⟨_, Generate_ok p c salt h1 h2, ?_⟩
  unfold Compare
  rw [if_neg (hashSerialize_2a_ne_nil _ _ _)]
  dsimp only
  rw [compareHashAndPassword_hashSerialize (generateEffectivePassword p)
    (compareEffectivePassword q) c salt hs h1n h2n]
  rw [if_neg hne]

/-- Witness for the amended C3 at two distinct one-byte credentials. -/
theorem compare_distinct_credentials_amended_witness :
    ∃ blob, Generate [97] 12 (List.replicate 22 46) = .ok blob ∧
      Compare blob [98] = .error (.compareFailed .mismatched) :=
  compare_distinct_credentials_amended [97] [98] 12 (List.replicate 22 46)
    (by decide) (by decide) (by decide) (by decide)

/-- C4: at every cost in [MinCost, MaxCost], Generate succeeds and Cost reads
back exactly the requested cost from the blob. -/
theorem generate_cost_roundtrip (p : Bytes) (c : Int) (salt : Bytes)
    (hs : salt.length = 22) (h1 : MinCost ≤ c) (h2 : c ≤ MaxCost) :
    ∃ blob, Generate p c salt = .ok blob ∧ Cost blob = .ok c := by
  have h1n : (12 : Int) ≤ c := h1
  have h2n : c ≤ 31 := h2
  refine ⟨_, Generate_ok p c salt h1 h2, ?_⟩
  unfold Cost bcryptCost
  rw [newFromHash_hashSerialize _ _ _ (bcryptDigest_length _ c salt) hs h1n h2n]

/-- Witness for C4 at the default cost. -/
theorem generate_cost_roundtrip_witness :
    ∃ blob, Generate [112, 119] 14 (List.replicate 22 46) = .ok blob ∧ Cost blob = .ok 14 :=
  generate_cost_roundtrip [112, 119] 14 (List.replicate 22 46) (by decide) (by decide) (by decide)

/-- C5: a cost below MinCost makes Generate fail with ErrCostTooLow carrying
the cost, and a cost above MaxCost makes it fail with ErrCostTooHigh; no
blob is returned in either case. -/
theorem generate_cost_out_of_range (p : Bytes) (c : Int) (salt : Bytes) :
    (c < MinCost → Generate p c salt = .error (.costTooLow c)) ∧
    (MaxCost < c → Generate p c salt = .error (.costTooHigh c)) := by
  constructor
  · intro h
    unfold Generate
    rw [if_pos h]
  · intro h
    have hge : MinCost ≤ c := le_of_lt (lt_trans (by decide) h)
    unfold Generate
    rw [if_neg (not_lt.mpr hge), if_pos h]

/-- Witness for C5 just below and just above the allowed range. -/
theorem generate_cost_out_of_range_witness :
    Generate [97] 4 (List.replicate 22 46) = .error (.costTooLow 4) ∧
    Generate [97] 32 (List.replicate 22 46) = .error (.costTooHigh 32) :=
  ⟨(generate_cost_out_of_range [97] 4 (List.replicate 22 46)).1 (by decide),
   (generate_cost_out_of_range [97] 32 (List.replicate 22 46)).2 (by decide)⟩

/-- C6: NeedsRehash is a total boolean: it is true exactly when the blob does
not parse (fail-open) or parses to a cost strictly below the target, and
in particular it is true on the empty blob and on garbage bytes. -/
theorem needsRehash_fail_open :
    (∀ (h : Bytes) (t : Int), NeedsRehash h t = true ↔
        (∃ e, Cost h = .error e) ∨ (∃ c, Cost h = .ok c ∧ c < t)) ∧
    (∀ t : Int, NeedsRehash [] t = true) ∧
    (∀ t : Int, NeedsRehash [105, 110, 118, 97, 108, 105, 100] t = true) := by
  refine ⟨?_, fun t => rfl, fun t => rfl⟩
  intro h t
  unfold NeedsRehash Cost
  cases hb : bcryptCost h with
  | error e => simp
  | ok c => simp

set_option maxRecDepth 100000 in
/-- C7: the pre-hash transform is pure, total and deterministic, its output
is always exactly 32 bytes (the SHA-256 digest size) whatever the input
length, and on the empty input it equals the standard SHA-256 digest of the
empty string. -/
theorem prehash_total_deterministic :
    (∀ p : Bytes, Prehash p = Prehash p) ∧
    (∀ p : Bytes, (Prehash p).length = 32) ∧
    Prehash [] = [227, 176, 196, 66, 152, 252, 28, 20, 154, 251, 244, 200, 153, 111, 185, 36,
      39, 174, 65, 228, 100, 155, 147, 76, 164, 149, 153, 27, 120, 82, 184, 85] :=
  ⟨fun _ => rfl, fun p => sha256_length p, by decide⟩

/-- C8: Compare on a zero-length blob fails with ErrHashEmpty for every
candidate, and the instrumented trace is empty: the check precedes any
pre-hashing and any call into the primitive. -/
theorem compare_empty_hash :
    ∀ p : Bytes, Compare [] p = .error .hashEmpty ∧ (CompareT [] p).2 = [] :=
  fun _ => ⟨rfl, rfl⟩

/-- C9 counterexample: the claim fails as stated.  At the 73-byte credential
of all `'a'` and the invalid cost 4, Generate fails with the cost-too-low
error, but the instrumented trace shows the pre-hash digest was computed
before the cost check — the code pre-hashes at lines 34-36, before the cost
validation at lines 37-42. -/
theorem generate_invalid_cost_prehashes_cex :
    (GenerateT (List.replicate 73 97) 4 (List.replicate 22 46)).1 =
        .error (.costTooLow 4) ∧
    (GenerateT (List.replicate 73 97) 4 (List.replicate 22 46)).2 =
        [Ev.prehashed (List.replicate 73 97)] := by
  refine ⟨by decide, by decide⟩

/-- C9 amended: for every cost outside [MinCost, MaxCost], Generate fails
with the direction-specific error and the underlying primitive is never
invoked; however the pre-hash is applied before cost validation, so for a
credential over PasswordLimit the digest is computed even on the failing
path (and for one at or under the limit nothing cryptographic runs). -/
theorem generate_invalid_cost_no_primitive (p : Bytes) (c : Int) (salt : Bytes)
    (hc : c < MinCost ∨ MaxCost < c) :
    (GenerateT p c salt).1 =
        (if c < MinCost then .error (.costTooLow c) else .error (.costTooHigh c)) ∧
    (∀ q, Ev.primitive q ∉ (GenerateT p c salt).2) ∧
    (p.length ≤ PasswordLimit → (GenerateT p c salt).2 = []) ∧
    (PasswordLimit < p.length → (GenerateT p c salt).2 = [Ev.prehashed p]) := by
  have htr : (GenerateT p c salt).2 =
      (if PasswordLimit < p.length then [Ev.prehashed p] else []) := by
    rw [generateT_trace, if_pos hc, List.append_nil]
  refine ⟨?_, ?_, ?_, ?_⟩
  · rw [generateT_fst]
    rcases hc with hc | hc
    · rw [if_pos hc]
      exact (generate_cost_out_of_range p c salt).1 hc
    · have hge : MinCost ≤ c := le_of_lt (lt_trans (by decide) hc)
      rw [if_neg (not_lt.mpr hge)]
      exact (generate_cost_out_of_range p c salt).2 hc
  · intro q hq
    rw [htr] at hq
    split at hq <;> simp at hq
  · intro hl
    rw [htr, if_neg (not_lt.mpr hl)]
  · intro hl
    rw [htr, if_pos hl]

/-- Witness for the amended C9 at a short credential and cost 32. -/
theorem generate_invalid_cost_no_primitive_witness :
    (GenerateT [97] 32 (List.replicate 22 46)).1 = .error (.costTooHigh 32) ∧
    (GenerateT [97] 32 (List.replicate 22 46)).2 = [] := by
  have h := generate_invalid_cost_no_primitive [97] 32 (List.replicate 22 46)
    (Or.inr (by decide))
  exact ⟨by rw [h.1, if_neg (by decide)], h.2.2.1 (by decide)⟩

/-- C10: what the wrapper actually hands to the primitive is never longer
than PasswordLimit: the digest is 32 bytes, the effective password is
bounded in both instrumented paths, an already pre-hashed value would not be
pre-hashed again, and Generate can never fail with the primitive's
over-length error. -/
theorem primitive_input_within_limit :
    (∀ p : Bytes, (Prehash p).length = 32) ∧
    (∀ p : Bytes, (generateEffectivePassword p).length ≤ PasswordLimit) ∧
    (∀ (p salt : Bytes) (c : Int) (q : Bytes),
        Ev.primitive q ∈ (GenerateT p c salt).2 → q.length ≤ PasswordLimit) ∧
    (∀ (h p q : Bytes), Ev.primitive q ∈ (CompareT h p).2 → q.length ≤ PasswordLimit) ∧
    (∀ p : Bytes, PasswordLimit < p.length →
        generateEffectivePassword (generateEffectivePassword p) = generateEffectivePassword p) ∧
    (∀ (p salt : Bytes) (c : Int),
        Generate p c salt ≠ .error (.generateFailed .passwordTooLong)) := by
  refine ⟨fun p => sha256_length p, generateEffectivePassword_length, ?_, ?_, ?_, ?_⟩
  · intro p salt c q hq
    rw [prehash_threshold_policy.2.2.2.1 p salt c q hq]
    exact generateEffectivePassword_length p
  · intro h p q hq
    rw [prehash_threshold_policy.2.2.2.2 h p q hq, compareEffectivePassword_eq]
    exact generateEffectivePassword_length p
  · intro p hl
    exact generateEffectivePassword_of_le _ (generateEffectivePassword_length p)
  · intro p salt c heq
    by_cases h1 : c < MinCost
    · rw [(generate_cost_out_of_range p c salt).1 h1] at heq
      simp at heq
    · by_cases h2 : MaxCost < c
      · rw [(generate_cost_out_of_range p c salt).2 h2] at heq
        simp at heq
      · rw [Generate_ok p c salt (not_lt.mp h1) (not_lt.mp h2)] at heq
        simp at heq

/-- Witness for C10: a 73-byte credential is not double pre-hashed, and the
candidate the Compare path hands to the primitive is within the limit. -/
theorem primitive_input_within_limit_witness :
    generateEffectivePassword (generateEffectivePassword (List.replicate 73 97)) =
        generateEffectivePassword (List.replicate 73 97) ∧
    ([97] : Bytes).length ≤ PasswordLimit :=
  ⟨primitive_input_within_limit.2.2.2.2.1 (List.replicate 73 97) (by decide),
   primitive_input_within_limit.2.2.2.1 [104] [97] [97] (by decide)⟩

end GoBcrypt
